import Mathlib

/-!
Verification of the Control D Quick Switcher extension's rule lifecycle
controller: a shallow embedding of the popup logic (popup main script) and the
background service worker (`Worker.js`), with theorems about the gateway
(create/update/delete of remote rules), the rule resolver (domain variations,
action-code extraction), the override scheduler (expiry and reapply alarms,
`PendingRestore` records) and the convergence flows (apply / remove button
handlers).

JavaScript values decoded from JSON response bodies are modelled by `JsonVal`;
the JS value `undefined` (an absent property) is modelled by `none` at type
`Option JsonVal`, while the JS/JSON value `null` is `JsonVal.null`.  Network
responses are modelled by `HttpResponse`: a status code and an optional decoded
JSON body (`none` models a body on which `res.json()` throws).  Fetch-level
(transport) exceptions are not modelled: every theorem is about runs in which
each issued request obtains a response.
-/

/-- A decoded JSON value.  Object fields are kept in insertion order, matching
the iteration order of `Object.keys` on JSON-decoded JavaScript objects. -/
inductive JsonVal where
  | null : JsonVal
  | bool : Bool → JsonVal
  | num : Int → JsonVal
  | str : String → JsonVal
  | arr : List JsonVal → JsonVal
  | obj : List (String × JsonVal) → JsonVal

/-- Field lookup in an object's field list (first binding wins, as in JSON
decoding where later duplicates are dropped by the decoder we model). -/
def lookupField : List (String × JsonVal) → String → Option JsonVal
  | [], _ => none
  | (k, v) :: rest, key => if k == key then some v else lookupField rest key

/-- JavaScript property access `v.k` for the property names used by this code
base.  On an object it looks the field up; on `null` the source code only ever
performs this access behind a guard (`?.`, a truthiness test, or a
`try`/`catch` modelled explicitly at each call site), and on primitives and
arrays the accessed properties (`body`, `rules`, `error`, `success`, …) are
absent, giving `undefined` (`none`). -/
def propOf : JsonVal → String → Option JsonVal
  | .obj fs, k => lookupField fs k
  | _, _ => none

/-- JavaScript optional chaining `v?.k`: `undefined` when `v` is `null` or
`undefined`, ordinary property access otherwise. -/
def jsOptChain : Option JsonVal → String → Option JsonVal
  | none, _ => none
  | some .null, _ => none
  | some v, k => propOf v k

/-- JavaScript truthiness of a decoded JSON value. -/
def jsTruthy : JsonVal → Bool
  | .null => false
  | .bool b => b
  | .num n => n != 0
  | .str s => s != ""
  | .arr _ => true
  | .obj _ => true

/-- Truthiness of a possibly-`undefined` value. -/
def jsTruthyO : Option JsonVal → Bool
  | some v => jsTruthy v
  | none => false

/-- JavaScript `a || b` for a possibly-`undefined` left operand. -/
def jsOrO : Option JsonVal → JsonVal → JsonVal
  | some v, b => if jsTruthy v then v else b
  | none, b => b

/-- JavaScript `a || b` where both operands may be `undefined`. -/
def jsOrOO : Option JsonVal → Option JsonVal → Option JsonVal
  | some v, b => if jsTruthy v then some v else b
  | none, b => b

/-- Strict equality `v === s` between a decoded value and a string literal. -/
def jsStrEqJ : JsonVal → String → Bool
  | .str t, s => t == s
  | _, _ => false

/-- Strict equality `v === s` where `v` may be `undefined`. -/
def jsStrEqO : Option JsonVal → String → Bool
  | some v, s => jsStrEqJ v s
  | _, _ => false

/-- Does the character-prefix `n` start the list `h`? -/
def subAt : List Char → List Char → Bool
  | [], _ => true
  | _ :: _, [] => false
  | a :: ns, b :: hs => a == b && subAt ns hs

/-- Does `n` occur as a contiguous run inside `h`?  (JavaScript
`String.prototype.includes`.) -/
def hasSubList (n : List Char) : List Char → Bool
  | [] => subAt n []
  | c :: t => subAt n (c :: t) || hasSubList n t

/-- JavaScript `hay.includes(needle)`. -/
def strHasSub (hay needle : String) : Bool := hasSubList needle.data hay.data

/-- JavaScript `String.prototype.trim`: strip whitespace from both ends
(ASCII whitespace; the exotic Unicode space points JS also strips never occur
in proxy identifiers or select values). -/
def strTrim (s : String) : String :=
  ⟨((s.data.dropWhile Char.isWhitespace).reverse.dropWhile Char.isWhitespace).reverse⟩

/-- JavaScript `String.prototype.toLowerCase` on the ASCII texts the API's
error messages use. -/
def lowerStr (s : String) : String := ⟨s.data.map Char.toLower⟩

/-- Strip a leading run of characters: `some rest` when `s = p ++ rest`. -/
def stripPre : List Char → List Char → Option (List Char)
  | [], s => some s
  | _ :: _, [] => none
  | p :: ps, c :: cs => if p == c then stripPre ps cs else none

/-- String form of `stripPre`: `alarm.name.startsWith(p)` followed by
`alarm.name.replace(p, '')` (the first occurrence of `p` in a string that
starts with `p` is its prefix, so `replace` strips it). -/
def strStrip (p s : String) : Option String :=
  match stripPre p.data s.data with
  | some rest => some ⟨rest⟩
  | none => none

/-- A network response as observed by the extension: the HTTP status code and
the decoded JSON body (`none` when `res.json()` throws). -/
structure HttpResponse where
  status : Nat
  body : Option JsonVal

/-- Model of `Response.ok` of the Fetch API: status in the inclusive range 200–299. -/
def respOk (s : Nat) : Bool := 200 ≤ s && s ≤ 299

/-- Model of `responseData.success === false` for a non-`null` decoded body. -/
def successIsFalse (d : JsonVal) : Bool :=
  match propOf d "success" with
  | some (.bool false) => true
  | _ => false

/-- The application-level success test shared by the popup's API helpers:
`res.ok && responseData.success !== false` on a parseable body.  An
unparseable body is a failure, and a literal `null` body makes the unguarded
`responseData.success` access throw, which every call site converts to a
failure through its `catch`. -/
def respSuccess (r : HttpResponse) : Bool :=
  match r.body with
  | none => false
  | some .null => false
  | some d => respOk r.status && !(successIsFalse d)

/-- Is the decoded body the literal JSON `null`?  Used to express hypotheses
ruling that corner (which throws at unguarded property accesses) out of a
run. -/
def isNullBody (r : HttpResponse) : Bool :=
  match r.body with
  | some .null => true
  | _ => false

/-- Model of `responseData.error?.code === 40003`. -/
def errCode40003 (d : JsonVal) : Bool :=
  match jsOptChain (propOf d "error") "code" with
  | some (.num n) => n == 40003
  | _ => false

/-- Result of evaluating a JavaScript expression that can throw. -/
inductive JsEval (α : Type) where
  | thrown : JsEval α
  | val : α → JsEval α

/-- Model of `responseData.error?.message?.toLowerCase() || ''`: the empty string when
the message is absent or `null`, the lowercased text when it is a string, and
a thrown `TypeError` when a non-string message is present (calling its absent
`toLowerCase` member). -/
def errMsgLower (d : JsonVal) : JsEval String :=
  match jsOptChain (propOf d "error") "message" with
  | none => .val ""
  | some .null => .val ""
  | some (.str s) => .val (lowerStr s)
  | some _ => .thrown

/-- Outcome of the POST ("create") phase of `updateControlDRule`: either the
early `return { success: true }`, or fall-through carrying the computed
`shouldTryPut` flag.  An unparseable body sets `shouldTryPut` in the `catch`;
a literal `null` body makes the unguarded accesses `responseData.success`
(when `res.ok`) or `responseData.error` throw inside the same `try`, with the
same effect; a non-string `error.message` likewise throws while computing
`errorMessage` and is caught there. -/
inductive PostPhase where
  | early : PostPhase
  | cont : Bool → PostPhase

/-- The POST phase of `updateControlDRule` (popup main script, create-then-
update helper): parse the response; succeed immediately on
`res.ok && responseData.success !== false`; otherwise decide whether the
remote store reported that the rule already exists (`error.code === 40003`,
an error-message substring `'already exists'` or `'exist'`, or HTTP 409). -/
def updatePostPhase (post : HttpResponse) : PostPhase :=
  match post.body with
  | none => .cont true
  | some .null => .cont true
  | some d =>
    if respOk post.status && !(successIsFalse d) then .early
    else
      match errMsgLower d with
      | .thrown => .cont true
      | .val msg =>
        .cont (errCode40003 d || strHasSub msg "already exists" ||
               strHasSub msg "exist" || post.status == 409)

/-- Result of `updateControlDRule`: did it report success, and was the PUT
("update") request issued after the POST ("create")? -/
structure UpdateRun where
  success : Bool
  putIssued : Bool

/-- Model of `updateControlDRule(key, profile, domain, action, proxyId)` (popup main
script): POST the rule body first; fall back to a single PUT of the same body
to the same endpoint when `shouldTryPut` is set or the POST response is not OK
(the source writes `!res.ok && res.status !== 200 && res.status !== 201`,
which is equivalent to `!res.ok` since `ok` means 200–299); finally report
success exactly on an OK, parseable, non-`null` final response whose `success`
field is not `false`.  `post` and `put` are the responses the network would
return for the two requests. -/
def updateControlDRule (post put : HttpResponse) : UpdateRun :=
  match updatePostPhase post with
  | .early => ⟨true, false⟩
  | .cont stp =>
    if stp || (!respOk post.status && post.status != 200 && post.status != 201) then
      ⟨respSuccess put, true⟩
    else
      ⟨respSuccess post, false⟩

/-- Model of `getBaseDomain(domain)` (popup main script): the empty string is returned
unchanged (`if (!domain) return domain`); a `www.`-prefixed domain loses the
prefix (`domain.substring(4)` after `domain.startsWith('www.')`); anything
else is returned unchanged. -/
def getBaseDomain (d : String) : String :=
  if d == "" then d
  else
    match strStrip "www." d with
    | some rest => rest
    | none => d

/-- Model of `getDomainVariations(domain)` (popup main script): the domain itself
first, then the other `www.` variant. -/
def getDomainVariations (d : String) : List String :=
  let base := getBaseDomain d
  if base != d then [d, base] else [d, "www." ++ d]

/-- Model of `foundRule && foundRule.PK` followed by the uses of `foundRule.PK` in
`removeControlDRule`.  `foundRule` is `null` or a rule object from the query
response; its `PK` field, when present and truthy, is the remote store key —
a string in every response shape of the Control D API (a non-string `PK` is
outside this model). -/
def rulePKStr : Option JsonVal → Option String
  | some r =>
    if jsTruthy r then
      match propOf r "PK" with
      | some (.str s) => if s != "" then some s else none
      | _ => none
    else none
  | none => none

/-- The ordered candidate list of `removeControlDRule`: the found rule's store
key first when known, then the domain variations not equal to it
(`[foundRule.PK, ...domainVariations.filter(d => d !== foundRule.PK)]`). -/
def deleteCandidates (foundRule : Option JsonVal) (domain : String) : List String :=
  match rulePKStr foundRule with
  | some pk => pk :: (getDomainVariations domain).filter (fun d => d != pk)
  | none => getDomainVariations domain

/-- The DELETE loop of `removeControlDRule`, returning the hostnames actually
sent (in order) and whether some candidate yielded
`res.ok && responseData.success !== false`.  An unparseable body `continue`s
to the next candidate; a literal `null` body makes the unguarded
`responseData.success` access throw, aborting the loop into the `catch`
(which falls back to the bypass update). -/
def runDeleteLoop (delResp : String → HttpResponse) : List String → List String × Bool
  | [] => ([], false)
  | c :: rest =>
    match (delResp c).body with
    | none =>
      let r := runDeleteLoop delResp rest
      (c :: r.1, r.2)
    | some .null => ([c], false)
    | some d =>
      if respOk (delResp c).status && !(successIsFalse d) then ([c], true)
      else
        let r := runDeleteLoop delResp rest
        (c :: r.1, r.2)

/-- Result of `removeControlDRule`: overall success, the hostnames sent in
DELETE requests (in order), and — when the bypass fallback ran — the hostname
list and action code of its single PUT body. -/
structure RemoveRun where
  success : Bool
  deletesIssued : List String
  bypassBody : Option (List String × Int)

/-- Model of `removeControlDRule(key, profile, domain, duration)` (popup main script):
try a DELETE per candidate in order, stopping at the first whose response is
OK with a non-`false` success flag; if none succeeds (or the loop throws),
fall back to `removeRuleViaBypass(key, profile, domain, domainVariations)` —
note the fallback receives `domainVariations`, not the PK-first candidate
list.  The bypass issues one PUT with body `{ hostnames: domainsToBypass,
do: 1 }` and reports success on an OK, parseable, non-`null` response whose
`success` field is not `false`. -/
def removeControlDRule (delResp : String → HttpResponse) (bypassResp : HttpResponse)
    (foundRule : Option JsonVal) (domain : String) : RemoveRun :=
  let r := runDeleteLoop delResp (deleteCandidates foundRule domain)
  if r.2 then ⟨true, r.1, none⟩
  else ⟨respSuccess bypassResp, r.1, some (getDomainVariations domain, 1)⟩

/-- The action-code extraction of `checkExistingRule` (popup main script):
`foundRule.action?.do` when defined; else flat `foundRule.do` — itself when a
number, its `value` member when defined, `null` otherwise; else flat
`foundRule.action` with the same number-or-`value` handling; else `null`.
The JavaScript `null` result is `JsonVal.null`; `foundRule` is truthy (the
branch runs under `if (foundRule)`). -/
def extractRuleAction (r : JsonVal) : JsonVal :=
  match jsOptChain (propOf r "action") "do" with
  | some v => v
  | none =>
    match propOf r "do" with
    | some (.num n) => .num n
    | some d =>
      match jsOptChain (some d) "value" with
      | some v => v
      | none => .null
    | none =>
      match propOf r "action" with
      | some (.num n) => .num n
      | some a =>
        match jsOptChain (some a) "value" with
        | some v => v
        | none => .null
      | none => .null

/-- The claim-side "numeric, or `{value}` object" normalization: a number is
itself, an object's `value` member is taken when defined, anything else is
unknown (`null`). -/
def numOrValue : JsonVal → JsonVal
  | .num n => .num n
  | v =>
    match jsOptChain (some v) "value" with
    | some w => w
    | none => .null

/-- Model of `const hostnames = r.hostnames || (r.hostname ? [r.hostname] : [])` of the
rule-matching predicate in `checkExistingRule`.  A truthy non-array
`hostnames` field (on which the later `includes` would not be array
membership) is outside this model and yields no members. -/
def ruleHostnames (r : JsonVal) : List JsonVal :=
  match propOf r "hostnames" with
  | some (.arr xs) => xs
  | some v =>
    if jsTruthy v then []
    else
      match propOf r "hostname" with
      | some hn => if jsTruthy hn then [hn] else []
      | none => []
  | none =>
    match propOf r "hostname" with
    | some hn => if jsTruthy hn then [hn] else []
    | none => []

/-- Model of `const rulePK = r.PK || r.hostname` of the rule-matching predicate. -/
def rulePKOf (r : JsonVal) : Option JsonVal :=
  jsOrOO (propOf r "PK") (propOf r "hostname")

/-- The matching predicate of `checkExistingRule`: some domain variation is a
member of the rule's hostname list, or equals its `hostname` field, or equals
its `PK`-or-`hostname` key, or that key is truthy and equals some variation
(all comparisons are JavaScript strict equality against a string). -/
def ruleMatches (vars : List String) (r : JsonVal) : Bool :=
  vars.any (fun dv =>
    (ruleHostnames r).any (fun h => jsStrEqJ h dv) ||
    jsStrEqO (propOf r "hostname") dv ||
    jsStrEqO (rulePKOf r) dv ||
    (jsTruthyO (rulePKOf r) && vars.any (fun d2 => jsStrEqO (rulePKOf r) d2)))

/-- Model of `const rules = data.body?.rules || data.body || data.rules || data` of
`checkExistingRule`, for a non-`null` decoded body (a `null` body throws at
`data.body` and is handled at the call site). -/
def rulesOfData (data : JsonVal) : JsonVal :=
  jsOrO (jsOptChain (propOf data "body") "rules")
    (jsOrO (propOf data "body") (jsOrO (propOf data "rules") data))

/-- Scan a decoded rule collection for the first match, mirroring
`rules.find(...)` (array shape) and the `Object.keys(rules)` loop (mapping
shape): `some (some r)` at the first matching rule, `some none` when the scan
completes without a match, `none` when a literal `null` entry is reached
first (its `r.hostnames` access throws, aborting `checkExistingRule` into its
`catch`). -/
def scanRules (vars : List String) : List JsonVal → Option (Option JsonVal)
  | [] => some none
  | .null :: _ => none
  | r :: rest => if ruleMatches vars r then some (some r) else scanRules vars rest

/-- Result of the query loop of `checkExistingRule`: the found rule, if any,
and the hostnames queried (in order). -/
structure QueryRun where
  found : Option JsonVal
  queried : List String

/-- The query loop of `checkExistingRule` (popup main script): fetch
`GET …/rules?hostname=<variation>` per domain variation in order; on an OK
response, normalize the rule collection and scan it for a match against all
variations, stopping at the first hit; a non-OK response silently moves on;
an unparseable or `null` body, or a `null` rule entry, throws and aborts the
whole check. -/
def queryLoop (qResp : String → HttpResponse) (vars : List String) :
    List String → QueryRun
  | [] => ⟨none, []⟩
  | v :: rest =>
    if respOk (qResp v).status then
      match (qResp v).body with
      | none => ⟨none, [v]⟩
      | some .null => ⟨none, [v]⟩
      | some data =>
        match rulesOfData data with
        | .arr rs =>
          if rs.length > 0 then
            match scanRules vars rs with
            | some (some fr) => ⟨some fr, [v]⟩
            | some none =>
              let q := queryLoop qResp vars rest
              ⟨q.found, v :: q.queried⟩
            | none => ⟨none, [v]⟩
          else
            let q := queryLoop qResp vars rest
            ⟨q.found, v :: q.queried⟩
        | .obj fs =>
          if fs.length > 0 then
            match scanRules vars (fs.map Prod.snd) with
            | some (some fr) => ⟨some fr, [v]⟩
            | some none =>
              let q := queryLoop qResp vars rest
              ⟨q.found, v :: q.queried⟩
            | none => ⟨none, [v]⟩
          else
            let q := queryLoop qResp vars rest
            ⟨q.found, v :: q.queried⟩
        | _ =>
          let q := queryLoop qResp vars rest
          ⟨q.found, v :: q.queried⟩
    else
      let q := queryLoop qResp vars rest
      ⟨q.found, v :: q.queried⟩

/-- Model of `checkExistingRule` (popup main script), restricted to its network-facing
part: iterate the query loop over the domain variations of the current
domain. -/
def checkExistingRuleQuery (qResp : String → HttpResponse) (domain : String) : QueryRun :=
  queryLoop qResp (getDomainVariations domain) (getDomainVariations domain)

/-- A locally persisted `PendingRestore` record, stored under key
`rule_<domain>`: the action code to restore (`JsonVal.null` when it could not
be resolved) and the proxy identifier.  The `timestamp` field of the source
record is informational only and is not modelled. -/
structure StoredRule where
  action : JsonVal
  proxyId : String

/-- A request body `{ hostnames, do, via? }` sent to the rules endpoint. -/
structure ReqBody where
  hostnames : List String
  doVal : JsonVal
  via : Option String

/-- The routing of `chrome.alarms.onAlarm` in `Worker.js`. -/
inductive AlarmAction where
  | expire : String → AlarmAction
  | reapply : String → AlarmAction
  | ignore : AlarmAction

/-- The `onAlarm` listener of `Worker.js`: an alarm named
`expire_rule_<domain>` triggers `removeRule(domain)`, one named
`reapply_rule_<domain>` triggers `reapplyRule(domain)`, anything else is
ignored.  The domain is reconstructed by stripping the name prefix
(`alarm.name.replace('expire_rule_', '')` under a `startsWith` guard). -/
def dispatchAlarm (name : String) : AlarmAction :=
  match strStrip "expire_rule_" name with
  | some d => .expire d
  | none =>
    match strStrip "reapply_rule_" name with
    | some d => .reapply d
    | none => .ignore

/-- Effects of `removeRule` in `Worker.js`: the `hostnames` body of the single
DELETE it issues (none when credentials are missing), and the storage write it
performs (never any). -/
structure WorkerRemoveRun where
  deleteBody : Option (List String)
  recordWritten : Option (String × StoredRule)

/-- Model of `removeRule(domain)` in `Worker.js`: with credentials configured, issue one
DELETE with body `{ hostnames: [domain] }` and only log the outcome; it never
touches local storage and never schedules anything. -/
def workerRemoveRule (creds : Bool) (domain : String) : WorkerRemoveRun :=
  if creds then ⟨some [domain], none⟩ else ⟨none, none⟩

/-- Effects of `reapplyRule` in `Worker.js`: the body of the POST (repeated
verbatim by the fallback PUT), whether the PUT was tried, whether the stored
`rule_<domain>` record was deleted, and the alarm it arms (never any — a
failed reapply does not re-arm itself). -/
structure ReapplyRun where
  request : Option ReqBody
  putTried : Bool
  recordDeleted : Bool
  alarmArmed : Option (String × Int)

/-- Model of `reapplyRule(domain)` in `Worker.js`: load the stored `rule_<domain>`
record; a missing record is a no-op; a `null` (or `undefined`) action deletes
the record without any network call; otherwise POST
`{ hostnames: [domain], do: action }` — plus `via` when the action is `3`
(Redirect) and a proxy id was stored — retry once as PUT if the POST is not
OK, and delete the record exactly when the final response is OK.  Only
`response.ok` is consulted; no `success` flag is read here. -/
def reapplyRule (creds : Bool) (storage : String → Option StoredRule)
    (postResp putResp : HttpResponse) (domain : String) : ReapplyRun :=
  if !creds then ⟨none, false, false, none⟩
  else
    match storage ("rule_" ++ domain) with
    | none => ⟨none, false, false, none⟩
    | some info =>
      match info.action with
      | .null => ⟨none, false, true, none⟩
      | act =>
        let isRedirect : Bool := match act with | .num n => n == 3 | _ => false
        let body : ReqBody :=
          ⟨[domain], act,
           if isRedirect && info.proxyId != "" then some info.proxyId else none⟩
        if respOk postResp.status then ⟨some body, false, true, none⟩
        else ⟨some body, true, respOk putResp.status, none⟩

/-- The `RuleAction.REDIRECT` constant of `constants.js` (the third
concatenated document of the popup sources):
`const RuleAction = { BLOCK: 0, BYPASS: 1, REDIRECT: 3 }` — `REDIRECT: 3`,
"Redirect traffic through a proxy".  `Worker.js` uses the literal `3` with
the comment `Action 3 = Redirect (requires proxy ID)`. -/
def RuleActionREDIRECT : Int := 3

/-- The parsed duration guard `duration > 0`, where the duration is
`parseInt(durationSelect.value)` — `none` models `NaN` (absent or
unparseable), and `NaN > 0` is false, so only a parsed, strictly positive
duration passes. -/
def optPos : Option Int → Bool
  | some n => 0 < n
  | none => false

/-- Model of `redirectProxyId = selectValue || selectedProxy?.trim() || null` of the
apply handler, where `selectValue` is the trimmed country-select value and
`selectedProxy` is the session's stored selection. -/
def resolveRedirectProxy (countryValue selectedProxy : String) : Option String :=
  if strTrim countryValue != "" then some (strTrim countryValue)
  else if strTrim selectedProxy != "" then some (strTrim selectedProxy)
  else none

/-- Effects of one run of the apply-button handler: whether it rejected with
the missing-proxy validation error, the rule body it passed to
`updateControlDRule` (none when no network call was made), the gateway
result, the alarm it armed, and the `PendingRestore` record it wrote (never
any — only the remove flow writes one). -/
structure ApplyFlowRun where
  validationFailed : Bool
  request : Option ReqBody
  gateway : Option UpdateRun
  alarmArmed : Option (String × Int)
  recordWritten : Option (String × StoredRule)

/-- The `applyBtn` click handler (popup main script): bail out on an empty
current domain or missing credentials; when the selected action is Redirect,
resolve a proxy id from the country select or the session state and reject
with a validation error — before any network call — when none resolves; build
`{ hostnames: [domain], do: action }` plus `via` for Redirect and run
`updateControlDRule`; on success with `duration > 0` create the alarm
`expire_rule_<domain>` with `delayInMinutes: duration`.  No `PendingRestore`
record is ever written here. -/
def applyBtnFlow (creds : Bool) (post put : HttpResponse) (domain : String)
    (duration : Option Int) (selectedAction : Int)
    (countryValue selectedProxy : String) : ApplyFlowRun :=
  if domain == "" then ⟨false, none, none, none, none⟩
  else if !creds then ⟨false, none, none, none, none⟩
  else
    let rp : Option String :=
      if selectedAction == RuleActionREDIRECT then
        resolveRedirectProxy countryValue selectedProxy
      else none
    if selectedAction == RuleActionREDIRECT && rp == none then
      ⟨true, none, none, none, none⟩
    else
      let body : ReqBody :=
        ⟨[domain], .num selectedAction,
         if selectedAction == RuleActionREDIRECT then rp else none⟩
      let result := updateControlDRule post put
      let alarm : Option (String × Int) :=
        match duration with
        | some n => if 0 < n then some ("expire_rule_" ++ domain, n) else none
        | none => none
      if result.success then ⟨false, some body, some result, alarm, none⟩
      else ⟨false, some body, some result, none, none⟩

/-- Effects of one run of the remove-button handler: the gateway run (none
when no network call was made), the reapply alarm it armed, and the
`PendingRestore` record it wrote to `chrome.storage.local`. -/
structure RemoveFlowRun where
  gateway : Option RemoveRun
  alarmArmed : Option (String × Int)
  recordWritten : Option (String × StoredRule)

/-- The `removeBtn` click handler (popup main script): bail out on an empty
current domain or missing credentials; run `removeControlDRule`; on success
with `duration > 0`, create the alarm `reapply_rule_<domain>` and persist
`{ action: ruleAction, proxyId: selectedProxy, timestamp }` under
`rule_<domain>`, where `ruleAction` is the module-state `existingRuleAction`
(normalized to `null` when `null`/`undefined` — the identity on our model)
and `selectedProxy` is the session's proxy selection; on success with
`duration <= 0` (or `NaN`) arm nothing and write nothing. -/
def removeBtnFlow (creds : Bool) (delResp : String → HttpResponse)
    (bypassResp : HttpResponse) (foundRule : Option JsonVal) (domain : String)
    (duration : Option Int) (existingRuleAction : JsonVal)
    (selectedProxy : String) : RemoveFlowRun :=
  if domain == "" then ⟨none, none, none⟩
  else if !creds then ⟨none, none, none⟩
  else
    let result := removeControlDRule delResp bypassResp foundRule domain
    if result.success then
      match duration with
      | some n =>
        if 0 < n then
          ⟨some result, some ("reapply_rule_" ++ domain, n),
           some ("rule_" ++ domain, ⟨existingRuleAction, selectedProxy⟩)⟩
        else ⟨some result, none, none⟩
      | none => ⟨some result, none, none⟩
    else ⟨some result, none, none⟩

theorem stripPre_append (p : List Char) : ∀ s, stripPre p (p ++ s) = some s := by
  induction p with
  | nil => intro s; rfl
  | cons a ps ih => intro s; simp [stripPre, ih]

theorem strStrip_append (p s : String) : strStrip p (p ++ s) = some s := by
  have h : (p ++ s).data = p.data ++ s.data := rfl
  simp [strStrip, h, stripPre_append]

theorem stripPre_eq_some (p : List Char) :
    ∀ s r, stripPre p s = some r → s = p ++ r := by
  induction p with
  | nil => intro s r h; simp [stripPre] at h; simp [h]
  | cons a ps ih =>
    intro s r h
    cases s with
    | nil => simp [stripPre] at h
    | cons b bs =>
      simp only [stripPre] at h
      by_cases hab : a == b
      · rw [if_pos hab] at h
        have h2 := ih bs r h
        have hab2 : a = b := beq_iff_eq.mp hab
        subst hab2
        simp [h2]
      · rw [if_neg hab] at h
        cases h

theorem strStrip_eq_some (p s r : String) (h : strStrip p s = some r) :
    s = p ++ r := by
  unfold strStrip at h
  cases hs : stripPre p.data s.data with
  | none => rw [hs] at h; cases h
  | some rest =>
    rw [hs] at h
    have hd : s.data = p.data ++ rest := stripPre_eq_some p.data s.data rest hs
    cases h
    show s = p ++ (⟨rest⟩ : String)
    have : (p ++ (⟨rest⟩ : String)).data = p.data ++ rest := rfl
    cases s with
    | mk ds => cases hd; rfl

theorem queryLoop_queried_pre (qResp : String → HttpResponse) (vars : List String) :
    ∀ l, ∃ t, (queryLoop qResp vars l).queried ++ t = l := by
  intro l
  induction l with
  | nil => exact ⟨[], rfl⟩
  | cons v rest ih =>
    obtain ⟨t, ht⟩ := ih
    unfold queryLoop
    repeat' split
    all_goals first
      | exact ⟨rest, rfl⟩
      | exact ⟨t, by simp [ht]⟩

/-- Claim C7: `getDomainVariations` returns exactly `[domain, bare]` for a
`www.`-prefixed domain and `[domain, "www." ++ domain]` otherwise; the first
element always equals the input; `checkExistingRule` queries the variations
in this order (its queried hostnames are a prefix of the variation list), and
`removeControlDRule`'s candidates are the variations, possibly with the found
rule's store key hoisted to the front (relative order preserved by
`filter`). -/
theorem claim_C7_domainVariations (d : String) :
    ((getDomainVariations d).head? = some d)
    ∧ (∀ rest, strStrip "www." d = some rest → getDomainVariations d = [d, rest])
    ∧ (strStrip "www." d = none → getDomainVariations d = [d, "www." ++ d])
    ∧ (∀ qResp, ∃ t, (checkExistingRuleQuery qResp d).queried ++ t = getDomainVariations d)
    ∧ (∀ fr, deleteCandidates fr d = getDomainVariations d ∨
        ∃ pk, rulePKStr fr = some pk ∧
          deleteCandidates fr d = pk :: (getDomainVariations d).filter (fun x => x != pk)) := by
  refine ⟨?_, ?_, ?_, ?_, ?_⟩
  · show (if (getBaseDomain d != d) = true then [d, getBaseDomain d]
          else [d, "www." ++ d]).head? = some d
    split <;> rfl
  · intro rest h
    by_cases hd : d = ""
    · subst hd
      rw [show strStrip "www." "" = none from by decide] at h
      cases h
    · have hdd : d = "www." ++ rest := strStrip_eq_some _ _ _ h
      have hlen : d.data.length = 4 + rest.data.length := by
        rw [hdd]
        show ("www.".data ++ rest.data).length = 4 + rest.data.length
        simp
        omega
      have hne : rest ≠ d := by
        intro he
        rw [he] at hlen
        omega
      simp [getDomainVariations, getBaseDomain, hd, h, hne]
  · intro h
    by_cases hd : d = ""
    · subst hd; decide
    · simp [getDomainVariations, getBaseDomain, hd, h]
  · intro qResp
    exact queryLoop_queried_pre qResp (getDomainVariations d) (getDomainVariations d)
  · intro fr
    unfold deleteCandidates
    cases hpk : rulePKStr fr with
    | none => exact Or.inl rfl
    | some pk => exact Or.inr ⟨pk, rfl, rfl⟩

/-- Witness for claim C7 at concrete inputs: a `www.`-prefixed domain and a
bare one. -/
theorem claim_C7_witness :
    getDomainVariations "www.example.com" = ["www.example.com", "example.com"]
    ∧ getDomainVariations "example.com" = ["example.com", "www.example.com"] := by
  refine ⟨?_, ?_⟩
  · exact (claim_C7_domainVariations "www.example.com").2.1 "example.com" (by decide)
  · exact (claim_C7_domainVariations "example.com").2.2.1 (by decide)

/-- The claim-side "remote store reports the rule already exists" signal of
claim C1: error code 40003, an error-message substring `'already exists'` or
`'exist'`, or HTTP status 409. -/
def reportsAlreadyExists (r : HttpResponse) : Bool :=
  r.status == 409 ||
  (match r.body with
   | some d =>
     errCode40003 d ||
     (match errMsgLower d with
      | .val m => strHasSub m "already exists" || strHasSub m "exist"
      | .thrown => false)
   | none => false)

/-- The condition under which the POST phase actually requests the PUT
fallback, phrased independently of `updateControlDRule`'s control flow: an
already-exists signal on a parseable non-`null` body, or a body on which the
response handling throws (unparseable JSON, literal `null`, or a non-string
`error.message`). -/
def postRetrySignal (r : HttpResponse) : Bool :=
  match r.body with
  | none => true
  | some .null => true
  | some d =>
    match errMsgLower d with
    | .thrown => true
    | .val m =>
      errCode40003 d || strHasSub m "already exists" || strHasSub m "exist" ||
      r.status == 409

theorem respOk_redundant (s : Nat) :
    (!respOk s && s != 200 && s != 201) = !respOk s := by
  by_cases h1 : 200 ≤ s
  · by_cases h2 : s ≤ 299
    · simp [respOk, h1, h2]
    · have e200 : (s == 200) = false := by simp; omega
      have e201 : (s == 201) = false := by simp; omega
      simp [respOk, h1, h2, bne, e200, e201]
  · have e200 : (s == 200) = false := by simp; omega
    have e201 : (s == 201) = false := by simp; omega
    simp [respOk, h1, bne, e200, e201]

theorem updatePostPhase_eq (r : HttpResponse) :
    updatePostPhase r =
      (if respSuccess r then .early else .cont (postRetrySignal r)) := by
  unfold updatePostPhase respSuccess postRetrySignal
  cases hb : r.body with
  | none => rfl
  | some d =>
    cases d with
    | null => rfl
    | bool b => rfl
    | num n => rfl
    | str s => rfl
    | arr xs => rfl
    | obj fs =>
      dsimp only
      split
      · rfl
      · cases hm : errMsgLower (.obj fs) with
        | thrown => rfl
        | val m => rfl

/-- Claim C1 (amended): `updateControlDRule` issues the PUT ("update")
fallback exactly when the POST ("create") did not already succeed and either
an already-exists signal / throwing response body occurred
(`postRetrySignal`) or the POST status was not 2xx; and it reports success
exactly when the response it last examined (the PUT's when the PUT was
issued, the POST's otherwise) is 2xx with a parseable, non-`null` body whose
`success` field is not `false`. -/
theorem claim_C1_amended (post put : HttpResponse) :
    ((updateControlDRule post put).putIssued
      = (!respSuccess post && (postRetrySignal post || !respOk post.status)))
    ∧ ((updateControlDRule post put).success
      = (if !respSuccess post && (postRetrySignal post || !respOk post.status)
         then respSuccess put else respSuccess post)) := by
  have hred := respOk_redundant post.status
  unfold updateControlDRule
  rw [updatePostPhase_eq post]
  by_cases hs : respSuccess post
  · simp [hs]
  · have hns : respSuccess post = false := by simpa using hs
    simp only [hns, Bool.false_eq_true, if_false, Bool.not_false, Bool.true_and]
    rw [hred]
    by_cases hc : (postRetrySignal post || !respOk post.status) = true
    · simp [hc]
    · have hcf : (postRetrySignal post || !respOk post.status) = false := by
        simpa using hc
      simp [hcf]

/-- Counterexample to claim C1 as stated: a POST answered `500` with the
parseable body `{"error":"Internal Server Error"}` carries none of the
already-exists signals (no code 40003, no `exist` substring — the `error`
field is a plain string, so `error?.message` is `undefined` — and the status
is not 409), yet `updateControlDRule` still issues the PUT fallback: the
retry is not conditioned on the already-exists report alone. -/
theorem claim_C1_counterexample :
    (updateControlDRule
        ⟨500, some (.obj [("error", .str "Internal Server Error")])⟩
        ⟨200, some (.obj [("success", .bool true)])⟩).putIssued = true
    ∧ reportsAlreadyExists
        ⟨500, some (.obj [("error", .str "Internal Server Error")])⟩ = false := by
  constructor
  · decide
  · decide

theorem respSuccess_some (r : HttpResponse) (d : JsonVal) (hb : r.body = some d)
    (hd : isNullBody r = false) :
    respSuccess r = (respOk r.status && !(successIsFalse d)) := by
  unfold respSuccess isNullBody at *
  rw [hb] at hd ⊢
  cases d
  case null => exact Bool.noConfusion hd
  all_goals rfl

theorem runDeleteLoop_cons (delResp : String → HttpResponse) (c : String)
    (rest : List String) (hd : isNullBody (delResp c) = false) :
    runDeleteLoop delResp (c :: rest) =
      (if respSuccess (delResp c) then ([c], true)
       else (c :: (runDeleteLoop delResp rest).1, (runDeleteLoop delResp rest).2)) := by
  conv_lhs => rw [runDeleteLoop]
  cases hb : (delResp c).body with
  | none =>
    have hsucc : respSuccess (delResp c) = false := by
      unfold respSuccess; rw [hb]
    rw [hsucc]
    simp
  | some d =>
    have hsucc := respSuccess_some (delResp c) d hb hd
    cases d
    case null =>
      exfalso
      unfold isNullBody at hd
      rw [hb] at hd
      exact Bool.noConfusion hd
    all_goals rw [hsucc]

theorem runDeleteLoop_eq (delResp : String → HttpResponse) :
    ∀ l, (∀ c ∈ l, isNullBody (delResp c) = false) →
      runDeleteLoop delResp l =
        (l.takeWhile (fun c => !respSuccess (delResp c)) ++
           (l.dropWhile (fun c => !respSuccess (delResp c))).take 1,
         l.any (fun c => respSuccess (delResp c))) := by
  intro l
  induction l with
  | nil => intro _; rfl
  | cons c rest ih =>
    intro h
    have hc := h c (List.mem_cons_self c rest)
    have hrest := ih (fun x hx => h x (List.mem_cons_of_mem c hx))
    rw [runDeleteLoop_cons delResp c rest hc]
    by_cases hq : respSuccess (delResp c) = true
    · simp [hq, List.takeWhile_cons, List.dropWhile_cons]
    · have hqf : respSuccess (delResp c) = false := by simpa using hq
      simp [hqf, hrest, List.takeWhile_cons, List.dropWhile_cons]

/-- Claim C2 (amended): `removeControlDRule` DELETEs each candidate in order
— the found rule's store key first when known, then the domain variations —
stopping at the first candidate whose response is 2xx with a non-`false`
success flag; when no candidate succeeds it issues one bypass update with
`do = 1`, whose hostname list is the two domain variations of the input
domain (not the full candidate list: the store key is dropped by the
fallback unless it coincides with a variation), and the overall result is
then the bypass update's own success.  Stated for runs in which no DELETE
response has a literal `null` JSON body (which would abort the loop early
into the same fallback). -/
theorem claim_C2_amended (delResp : String → HttpResponse) (bypassResp : HttpResponse)
    (fr : Option JsonVal) (dom : String)
    (h : ∀ c ∈ deleteCandidates fr dom, isNullBody (delResp c) = false) :
    ((removeControlDRule delResp bypassResp fr dom).success
      = ((deleteCandidates fr dom).any (fun c => respSuccess (delResp c)) ||
          respSuccess bypassResp))
    ∧ ((removeControlDRule delResp bypassResp fr dom).deletesIssued
      = (deleteCandidates fr dom).takeWhile (fun c => !respSuccess (delResp c)) ++
          ((deleteCandidates fr dom).dropWhile (fun c => !respSuccess (delResp c))).take 1)
    ∧ ((removeControlDRule delResp bypassResp fr dom).bypassBody
      = (if (deleteCandidates fr dom).any (fun c => respSuccess (delResp c)) then none
         else some (getDomainVariations dom, 1))) := by
  unfold removeControlDRule
  rw [runDeleteLoop_eq delResp (deleteCandidates fr dom) h]
  by_cases ha : (deleteCandidates fr dom).any (fun c => respSuccess (delResp c)) = true
  · simp [ha]
  · have haf : (deleteCandidates fr dom).any (fun c => respSuccess (delResp c)) = false := by
      simpa using ha
    simp [haf]

/-- Counterexample to claim C2 as stated, at the spec's own scenario: with
found store key `p_abc123` and domain `example.com`, the DELETE candidates
are `[p_abc123, example.com, www.example.com]` and all three DELETEs answer
HTTP 404, but the bypass update covers only `[example.com, www.example.com]`
— not the same three candidates (the store key is missing).  The overall
result is still success (the bypass PUT succeeded). -/
theorem claim_C2_counterexample :
    ((removeControlDRule (fun _ => ⟨404, some (.obj [("error", .str "not found")])⟩)
        ⟨200, some (.obj [("success", .bool true)])⟩
        (some (.obj [("PK", .str "p_abc123")])) "example.com").deletesIssued
      = ["p_abc123", "example.com", "www.example.com"])
    ∧ ((removeControlDRule (fun _ => ⟨404, some (.obj [("error", .str "not found")])⟩)
        ⟨200, some (.obj [("success", .bool true)])⟩
        (some (.obj [("PK", .str "p_abc123")])) "example.com").bypassBody
      = some (["example.com", "www.example.com"], 1))
    ∧ ((removeControlDRule (fun _ => ⟨404, some (.obj [("error", .str "not found")])⟩)
        ⟨200, some (.obj [("success", .bool true)])⟩
        (some (.obj [("PK", .str "p_abc123")])) "example.com").bypassBody
      ≠ some (["p_abc123", "example.com", "www.example.com"], 1))
    ∧ ((removeControlDRule (fun _ => ⟨404, some (.obj [("error", .str "not found")])⟩)
        ⟨200, some (.obj [("success", .bool true)])⟩
        (some (.obj [("PK", .str "p_abc123")])) "example.com").success = true) := by
  refine ⟨by decide, by decide, by decide, by decide⟩

/-- Witness for claim C2 (amended) at the spec scenario's inputs. -/
theorem claim_C2_witness :
    (removeControlDRule (fun _ => ⟨404, some (.obj [("error", .str "not found")])⟩)
      ⟨200, some (.obj [("success", .bool true)])⟩
      (some (.obj [("PK", .str "p_abc123")])) "example.com").success = true := by
  have h := claim_C2_amended (fun _ => ⟨404, some (.obj [("error", .str "not found")])⟩)
      ⟨200, some (.obj [("success", .bool true)])⟩
      (some (.obj [("PK", .str "p_abc123")])) "example.com" (by decide)
  rw [h.1]
  decide

theorem numOrValue_cases (v : JsonVal) :
    numOrValue v = v ∨ jsOptChain (some v) "value" = some (numOrValue v) ∨
      numOrValue v = .null := by
  cases v with
  | num n => exact Or.inl rfl
  | obj fs =>
    cases h : jsOptChain (some (JsonVal.obj fs)) "value" with
    | some w =>
      refine Or.inr (Or.inl ?_)
      have he : numOrValue (JsonVal.obj fs) = w := by
        show (match jsOptChain (some (JsonVal.obj fs)) "value" with
              | some w => w
              | none => JsonVal.null) = w
        rw [h]
      rw [he]
    | none =>
      refine Or.inr (Or.inr ?_)
      show (match jsOptChain (some (JsonVal.obj fs)) "value" with
            | some w => w
            | none => JsonVal.null) = JsonVal.null
      rw [h]
  | null => exact Or.inr (Or.inr rfl)
  | bool b => exact Or.inr (Or.inr rfl)
  | str s => exact Or.inr (Or.inr rfl)
  | arr xs => exact Or.inr (Or.inr rfl)

/-- Claim C8: the action-code extraction checks, in priority order, nested
`action.do`, then flat `do` (a number itself, or the `value` member of an
object), then flat `action` (same shapes), and yields `null` when none of
these shapes matches; and no other value is ever produced — every result is
the nested `action.do` value, the flat `do` or its `value` member, the flat
`action` or its `value` member, or `null`. -/
theorem claim_C8_actionExtraction (r : JsonVal) :
    (extractRuleAction r =
      (match jsOptChain (propOf r "action") "do" with
       | some v => v
       | none =>
         match propOf r "do" with
         | some d => numOrValue d
         | none =>
           match propOf r "action" with
           | some a => numOrValue a
           | none => .null))
    ∧ (extractRuleAction r = .null
       ∨ jsOptChain (propOf r "action") "do" = some (extractRuleAction r)
       ∨ (∃ d, propOf r "do" = some d ∧
            (d = extractRuleAction r ∨
             jsOptChain (some d) "value" = some (extractRuleAction r)))
       ∨ (∃ a, propOf r "action" = some a ∧
            (a = extractRuleAction r ∨
             jsOptChain (some a) "value" = some (extractRuleAction r)))) := by
  have hmain : extractRuleAction r =
      (match jsOptChain (propOf r "action") "do" with
       | some v => v
       | none =>
         match propOf r "do" with
         | some d => numOrValue d
         | none =>
           match propOf r "action" with
           | some a => numOrValue a
           | none => .null) := by
    cases h1 : jsOptChain (propOf r "action") "do" with
    | some v =>
      unfold extractRuleAction
      rw [h1]
    | none =>
      unfold extractRuleAction
      rw [h1]
      cases h2 : propOf r "do" with
      | some d => cases d <;> rfl
      | none =>
        cases h3 : propOf r "action" with
        | some a => cases a <;> rfl
        | none => rfl
  refine ⟨hmain, ?_⟩
  cases h1 : jsOptChain (propOf r "action") "do" with
  | some v =>
    have he : extractRuleAction r = v := by rw [hmain, h1]
    exact Or.inr (Or.inl (by rw [he]))
  | none =>
    cases h2 : propOf r "do" with
    | some d =>
      have he : extractRuleAction r = numOrValue d := by rw [hmain, h1, h2]
      rcases numOrValue_cases d with hnv | hnv | hnv
      · exact Or.inr (Or.inr (Or.inl ⟨d, rfl, Or.inl (by rw [he, hnv])⟩))
      · exact Or.inr (Or.inr (Or.inl ⟨d, rfl, Or.inr (by rw [he]; exact hnv)⟩))
      · exact Or.inl (by rw [he, hnv])
    | none =>
      cases h3 : propOf r "action" with
      | some a =>
        have he : extractRuleAction r = numOrValue a := by rw [hmain, h1, h2, h3]
        rcases numOrValue_cases a with hnv | hnv | hnv
        · exact Or.inr (Or.inr (Or.inr ⟨a, rfl, Or.inl (by rw [he, hnv])⟩))
        · exact Or.inr (Or.inr (Or.inr ⟨a, rfl, Or.inr (by rw [he]; exact hnv)⟩))
        · exact Or.inl (by rw [he, hnv])
      | none =>
        exact Or.inl (by rw [hmain, h1, h2, h3])

theorem dispatchAlarm_expire (d : String) :
    dispatchAlarm ("expire_rule_" ++ d) = .expire d := by
  unfold dispatchAlarm
  rw [strStrip_append]

theorem dispatchAlarm_reapply (d : String) :
    dispatchAlarm ("reapply_rule_" ++ d) = .reapply d := by
  unfold dispatchAlarm
  have h1 : strStrip "expire_rule_" ("reapply_rule_" ++ d) = none := rfl
  rw [h1, strStrip_append]

/-- Claim C6: with action Redirect and no proxy resolvable (both the trimmed
country-select value and the trimmed session selection empty), the apply flow
rejects with the validation error and issues no request at all to the rules
endpoint; when a proxy does resolve, the request body carries it in `via`.
The Redirect action code 3 comes from the spec glossary (`constants.js` is
not among the sources). -/
theorem claim_C6_redirectValidation (post put : HttpResponse) (domain : String)
    (dur : Option Int) (cv sp : String) (hdom : domain ≠ "") :
    (resolveRedirectProxy cv sp = none ↔ (strTrim cv = "" ∧ strTrim sp = ""))
    ∧ (resolveRedirectProxy cv sp = none →
        applyBtnFlow true post put domain dur 3 cv sp =
          ⟨true, none, none, none, none⟩)
    ∧ (∀ p, resolveRedirectProxy cv sp = some p →
        (applyBtnFlow true post put domain dur 3 cv sp).request =
          some ⟨[domain], .num 3, some p⟩) := by
  have hd : (domain == "") = false := beq_eq_false_iff_ne.mpr hdom
  refine ⟨?_, ?_, ?_⟩
  · by_cases h1 : strTrim cv = "" <;> by_cases h2 : strTrim sp = "" <;>
      simp [resolveRedirectProxy, h1, h2]
  · intro h
    simp [applyBtnFlow, RuleActionREDIRECT, hd, h]
  · intro p hp
    by_cases hres : (updateControlDRule post put).success = true <;>
      simp [applyBtnFlow, RuleActionREDIRECT, hd, hp, hres]

/-- Witness for claim C6: with no proxy resolvable the flow is exactly the
validation rejection; with the country select holding ` nyc ` the request
carries `via: "nyc"`. -/
theorem claim_C6_witness :
    (applyBtnFlow true ⟨200, some (.obj [])⟩ ⟨200, some (.obj [])⟩
        "example.com" (some 0) 3 "" "" = ⟨true, none, none, none, none⟩)
    ∧ ((applyBtnFlow true ⟨200, some (.obj [])⟩ ⟨200, some (.obj [])⟩
          "example.com" (some 0) 3 " nyc " "").request
        = some ⟨["example.com"], .num 3, some "nyc"⟩) := by
  constructor
  · exact (claim_C6_redirectValidation ⟨200, some (.obj [])⟩ ⟨200, some (.obj [])⟩
      "example.com" (some 0) "" "" (by decide)).2.1 (by decide)
  · exact (claim_C6_redirectValidation ⟨200, some (.obj [])⟩ ⟨200, some (.obj [])⟩
      "example.com" (some 0) " nyc " "" (by decide)).2.2 "nyc" (by decide)

/-- Claim C4: after a successful Redirect apply with a positive duration, the
apply flow sent `{ hostnames: [domain], do: 3, via: proxy }`, wrote no
`PendingRestore` record, and armed exactly the `expire_rule_<domain>` alarm;
when that alarm fires, the worker routes it to `removeRule` with the domain
reconstructed from the name, which issues one DELETE for `[domain]` and
writes no record either — so no `PendingRestore` exists at any point in this
flow. -/
theorem claim_C4_applyExpireRoundtrip (post put : HttpResponse)
    (domain cv sp p : String) (n : Int)
    (hdom : domain ≠ "") (hn : 0 < n)
    (hp : resolveRedirectProxy cv sp = some p)
    (hsucc : (updateControlDRule post put).success = true) :
    ((applyBtnFlow true post put domain (some n) 3 cv sp).request
      = some ⟨[domain], .num 3, some p⟩)
    ∧ ((applyBtnFlow true post put domain (some n) 3 cv sp).recordWritten = none)
    ∧ ((applyBtnFlow true post put domain (some n) 3 cv sp).alarmArmed
      = some ("expire_rule_" ++ domain, n))
    ∧ (dispatchAlarm ("expire_rule_" ++ domain) = .expire domain)
    ∧ ((workerRemoveRule true domain).deleteBody = some [domain])
    ∧ ((workerRemoveRule true domain).recordWritten = none) := by
  have hd : (domain == "") = false := beq_eq_false_iff_ne.mpr hdom
  refine ⟨?_, ?_, ?_, dispatchAlarm_expire domain, rfl, rfl⟩
  all_goals simp [applyBtnFlow, RuleActionREDIRECT, hd, hp, hsucc, hn]

/-- Witness for claim C4 at concrete inputs (duration 5, proxy `proxyA`,
a 2xx create response). -/
theorem claim_C4_witness :
    ((applyBtnFlow true ⟨200, some (.obj [])⟩ ⟨500, none⟩
        "example.com" (some 5) 3 "proxyA" "").request
      = some ⟨["example.com"], .num 3, some "proxyA"⟩)
    ∧ ((applyBtnFlow true ⟨200, some (.obj [])⟩ ⟨500, none⟩
        "example.com" (some 5) 3 "proxyA" "").recordWritten = none)
    ∧ ((applyBtnFlow true ⟨200, some (.obj [])⟩ ⟨500, none⟩
        "example.com" (some 5) 3 "proxyA" "").alarmArmed
      = some ("expire_rule_" ++ "example.com", 5))
    ∧ (dispatchAlarm ("expire_rule_" ++ "example.com") = .expire "example.com")
    ∧ ((workerRemoveRule true "example.com").deleteBody = some ["example.com"])
    ∧ ((workerRemoveRule true "example.com").recordWritten = none) :=
  claim_C4_applyExpireRoundtrip ⟨200, some (.obj [])⟩ ⟨500, none⟩
    "example.com" "proxyA" "" "proxyA" 5
    (by decide) (by decide) (by decide) (by decide)

/-- Claim C3: a successful temporary removal (duration `n > 0`) while the
resolved action is Bypass (`1`) persists `PendingRestore{action: 1}` under
`rule_<domain>` and arms `reapply_rule_<domain>`; when that alarm fires the
worker recreates the rule with `do = 1` (no `via`, since the action is not
Redirect), deletes the record exactly when the POST-then-PUT chain obtained a
2xx response, and never arms a further trigger (no automatic re-arm on
failure). -/
theorem claim_C3_removeReapplyRoundtrip (delResp : String → HttpResponse)
    (bypassResp postResp putResp : HttpResponse) (fr : Option JsonVal)
    (domain sp : String) (n : Int)
    (hdom : domain ≠ "") (hn : 0 < n)
    (hsucc : (removeControlDRule delResp bypassResp fr domain).success = true) :
    ((removeBtnFlow true delResp bypassResp fr domain (some n) (.num 1) sp).recordWritten
      = some ("rule_" ++ domain, ⟨.num 1, sp⟩))
    ∧ ((removeBtnFlow true delResp bypassResp fr domain (some n) (.num 1) sp).alarmArmed
      = some ("reapply_rule_" ++ domain, n))
    ∧ (dispatchAlarm ("reapply_rule_" ++ domain) = .reapply domain)
    ∧ ((reapplyRule true
          (fun k => if k == "rule_" ++ domain then some ⟨.num 1, sp⟩ else none)
          postResp putResp domain).request = some ⟨[domain], .num 1, none⟩)
    ∧ ((reapplyRule true
          (fun k => if k == "rule_" ++ domain then some ⟨.num 1, sp⟩ else none)
          postResp putResp domain).recordDeleted
      = (respOk postResp.status || respOk putResp.status))
    ∧ ((reapplyRule true
          (fun k => if k == "rule_" ++ domain then some ⟨.num 1, sp⟩ else none)
          postResp putResp domain).alarmArmed = none) := by
  have hd : (domain == "") = false := beq_eq_false_iff_ne.mpr hdom
  refine ⟨?_, ?_, dispatchAlarm_reapply domain, ?_, ?_, ?_⟩
  · simp [removeBtnFlow, hd, hsucc, hn]
  · simp [removeBtnFlow, hd, hsucc, hn]
  · by_cases hpo : respOk postResp.status = true <;> simp [reapplyRule, hpo]
  · by_cases hpo : respOk postResp.status = true <;> simp [reapplyRule, hpo]
  · by_cases hpo : respOk postResp.status = true <;> simp [reapplyRule, hpo]

/-- Witness for claim C3 at concrete inputs (first DELETE candidate answered
2xx, reapply POST answered 2xx). -/
theorem claim_C3_witness :
    ((removeBtnFlow true (fun _ => ⟨200, some (.obj [])⟩) ⟨500, none⟩ none
        "example.com" (some 5) (.num 1) "").recordWritten
      = some ("rule_" ++ "example.com", ⟨.num 1, ""⟩))
    ∧ ((removeBtnFlow true (fun _ => ⟨200, some (.obj [])⟩) ⟨500, none⟩ none
        "example.com" (some 5) (.num 1) "").alarmArmed
      = some ("reapply_rule_" ++ "example.com", 5))
    ∧ (dispatchAlarm ("reapply_rule_" ++ "example.com") = .reapply "example.com")
    ∧ ((reapplyRule true
          (fun k => if k == "rule_" ++ "example.com" then some ⟨.num 1, ""⟩ else none)
          ⟨200, some (.obj [])⟩ ⟨500, none⟩ "example.com").request
      = some ⟨["example.com"], .num 1, none⟩)
    ∧ ((reapplyRule true
          (fun k => if k == "rule_" ++ "example.com" then some ⟨.num 1, ""⟩ else none)
          ⟨200, some (.obj [])⟩ ⟨500, none⟩ "example.com").recordDeleted
      = (respOk (200 : Nat) || respOk (500 : Nat)))
    ∧ ((reapplyRule true
          (fun k => if k == "rule_" ++ "example.com" then some ⟨.num 1, ""⟩ else none)
          ⟨200, some (.obj [])⟩ ⟨500, none⟩ "example.com").alarmArmed = none) :=
  claim_C3_removeReapplyRoundtrip (fun _ => ⟨200, some (.obj [])⟩) ⟨500, none⟩
    ⟨200, some (.obj [])⟩ ⟨500, none⟩ none "example.com" "" 5
    (by decide) (by decide) (by decide)

/-- Claim C5: a successful temporary removal whose resolved action is unknown
(`null`) persists `PendingRestore{action: null}`; when the reapply trigger
fires on that record, the worker issues no network request (not even the
POST), deletes the stored record, and arms nothing. -/
theorem claim_C5_degradedNullAction (delResp : String → HttpResponse)
    (bypassResp postResp putResp : HttpResponse) (fr : Option JsonVal)
    (domain sp : String) (n : Int)
    (hdom : domain ≠ "") (hn : 0 < n)
    (hsucc : (removeControlDRule delResp bypassResp fr domain).success = true) :
    ((removeBtnFlow true delResp bypassResp fr domain (some n) .null sp).recordWritten
      = some ("rule_" ++ domain, ⟨.null, sp⟩))
    ∧ ((reapplyRule true
          (fun k => if k == "rule_" ++ domain then some ⟨.null, sp⟩ else none)
          postResp putResp domain).request = none)
    ∧ ((reapplyRule true
          (fun k => if k == "rule_" ++ domain then some ⟨.null, sp⟩ else none)
          postResp putResp domain).putTried = false)
    ∧ ((reapplyRule true
          (fun k => if k == "rule_" ++ domain then some ⟨.null, sp⟩ else none)
          postResp putResp domain).recordDeleted = true)
    ∧ ((reapplyRule true
          (fun k => if k == "rule_" ++ domain then some ⟨.null, sp⟩ else none)
          postResp putResp domain).alarmArmed = none) := by
  have hd : (domain == "") = false := beq_eq_false_iff_ne.mpr hdom
  refine ⟨?_, ?_, ?_, ?_, ?_⟩
  · simp [removeBtnFlow, hd, hsucc, hn]
  all_goals simp [reapplyRule]

/-- Witness for claim C5 at concrete inputs. -/
theorem claim_C5_witness :
    ((removeBtnFlow true (fun _ => ⟨200, some (.obj [])⟩) ⟨500, none⟩ none
        "example.com" (some 5) .null "").recordWritten
      = some ("rule_" ++ "example.com", ⟨.null, ""⟩))
    ∧ ((reapplyRule true
          (fun k => if k == "rule_" ++ "example.com" then some ⟨.null, ""⟩ else none)
          ⟨200, some (.obj [])⟩ ⟨500, none⟩ "example.com").request = none)
    ∧ ((reapplyRule true
          (fun k => if k == "rule_" ++ "example.com" then some ⟨.null, ""⟩ else none)
          ⟨200, some (.obj [])⟩ ⟨500, none⟩ "example.com").putTried = false)
    ∧ ((reapplyRule true
          (fun k => if k == "rule_" ++ "example.com" then some ⟨.null, ""⟩ else none)
          ⟨200, some (.obj [])⟩ ⟨500, none⟩ "example.com").recordDeleted = true)
    ∧ ((reapplyRule true
          (fun k => if k == "rule_" ++ "example.com" then some ⟨.null, ""⟩ else none)
          ⟨200, some (.obj [])⟩ ⟨500, none⟩ "example.com").alarmArmed = none) :=
  claim_C5_degradedNullAction (fun _ => ⟨200, some (.obj [])⟩) ⟨500, none⟩
    ⟨200, some (.obj [])⟩ ⟨500, none⟩ none "example.com" "" 5
    (by decide) (by decide) (by decide)

/-- Claim C9: a duration of 0, negative, or `NaN` (absent/unparseable) is
permanent and never arms a trigger.  In the remove flow, the
`reapply_rule_<domain>` alarm and the `PendingRestore` record are produced
exactly when the gateway call succeeded and the parsed duration is strictly
positive; in the apply flow (when validation passed), the
`expire_rule_<domain>` alarm is produced exactly when the gateway call
succeeded and the parsed duration is strictly positive. -/
theorem claim_C9_durationGatesTriggers (delResp : String → HttpResponse)
    (bypassResp post put : HttpResponse) (fr : Option JsonVal)
    (domain cv sp spx : String) (dur : Option Int) (ea : JsonVal) (act : Int)
    (hdom : domain ≠ "") :
    ((removeBtnFlow true delResp bypassResp fr domain dur ea spx).alarmArmed
      = (if (removeControlDRule delResp bypassResp fr domain).success && optPos dur
         then some ("reapply_rule_" ++ domain, dur.getD 0) else none))
    ∧ ((removeBtnFlow true delResp bypassResp fr domain dur ea spx).recordWritten
      = (if (removeControlDRule delResp bypassResp fr domain).success && optPos dur
         then some ("rule_" ++ domain, ⟨ea, spx⟩) else none))
    ∧ ((applyBtnFlow true post put domain dur act cv sp).validationFailed = false →
        (applyBtnFlow true post put domain dur act cv sp).alarmArmed
          = (if (updateControlDRule post put).success && optPos dur
             then some ("expire_rule_" ++ domain, dur.getD 0) else none)) := by
  have hd : (domain == "") = false := beq_eq_false_iff_ne.mpr hdom
  refine ⟨?_, ?_, ?_⟩
  · by_cases hres : (removeControlDRule delResp bypassResp fr domain).success = true
    · cases dur with
      | none => simp [removeBtnFlow, hd, hres, optPos]
      | some m =>
        by_cases hm : 0 < m
        · simp [removeBtnFlow, hd, hres, optPos, hm]
        · simp [removeBtnFlow, hd, hres, optPos, hm]
    · have hresf : (removeControlDRule delResp bypassResp fr domain).success = false := by
        simpa using hres
      cases dur with
      | none => simp [removeBtnFlow, hd, hresf, optPos]
      | some m => simp [removeBtnFlow, hd, hresf, optPos]
  · by_cases hres : (removeControlDRule delResp bypassResp fr domain).success = true
    · cases dur with
      | none => simp [removeBtnFlow, hd, hres, optPos]
      | some m =>
        by_cases hm : 0 < m
        · simp [removeBtnFlow, hd, hres, optPos, hm]
        · simp [removeBtnFlow, hd, hres, optPos, hm]
    · have hresf : (removeControlDRule delResp bypassResp fr domain).success = false := by
        simpa using hres
      cases dur with
      | none => simp [removeBtnFlow, hd, hresf, optPos]
      | some m => simp [removeBtnFlow, hd, hresf, optPos]
  · intro hval
    by_cases hact : act = RuleActionREDIRECT
    · subst hact
      by_cases hrp : resolveRedirectProxy cv sp = none
      · exfalso
        have hvt : (applyBtnFlow true post put domain dur RuleActionREDIRECT
            cv sp).validationFailed = true := by
          simp [applyBtnFlow, hd, hrp]
        rw [hval] at hvt
        exact Bool.noConfusion hvt
      · by_cases hres : (updateControlDRule post put).success = true
        · cases dur with
          | none => simp [applyBtnFlow, hd, hrp, hres, optPos]
          | some m =>
            by_cases hm : 0 < m
            · simp [applyBtnFlow, hd, hrp, hres, optPos, hm]
            · simp [applyBtnFlow, hd, hrp, hres, optPos, hm]
        · have hresf : (updateControlDRule post put).success = false := by
            simpa using hres
          cases dur with
          | none => simp [applyBtnFlow, hd, hrp, hresf, optPos]
          | some m => simp [applyBtnFlow, hd, hrp, hresf, optPos]
    · by_cases hres : (updateControlDRule post put).success = true
      · cases dur with
        | none => simp [applyBtnFlow, hd, hact, hres, optPos]
        | some m =>
          by_cases hm : 0 < m
          · simp [applyBtnFlow, hd, hact, hres, optPos, hm]
          · simp [applyBtnFlow, hd, hact, hres, optPos, hm]
      · have hresf : (updateControlDRule post put).success = false := by
          simpa using hres
        cases dur with
        | none => simp [applyBtnFlow, hd, hact, hresf, optPos]
        | some m => simp [applyBtnFlow, hd, hact, hresf, optPos]

/-- Witness for claim C9: a successful removal with duration 5 arms the
reapply trigger and writes the record; a successful Bypass apply with `NaN`
duration arms nothing. -/
theorem claim_C9_witness :
    ((removeBtnFlow true (fun _ => ⟨200, some (.obj [])⟩) ⟨500, none⟩ none
        "example.com" (some 5) (.num 1) "").alarmArmed
      = some ("reapply_rule_" ++ "example.com", 5))
    ∧ ((applyBtnFlow true ⟨200, some (.obj [])⟩ ⟨500, none⟩
        "example.com" none 1 "" "").alarmArmed = none) := by
  constructor
  · have h := (claim_C9_durationGatesTriggers (fun _ => ⟨200, some (.obj [])⟩)
      ⟨500, none⟩ ⟨200, some (.obj [])⟩ ⟨500, none⟩ none
      "example.com" "" "" "" (some 5) (.num 1) 1 (by decide)).1
    rw [h]
    decide
  · have h := (claim_C9_durationGatesTriggers (fun _ => ⟨200, some (.obj [])⟩)
      ⟨500, none⟩ ⟨200, some (.obj [])⟩ ⟨500, none⟩ none
      "example.com" "" "" "" none (.num 1) 1 (by decide)).2.2 (by decide)
    rw [h]
    decide

/-- Claim C10 (implicit): the `proxyId` persisted in a `PendingRestore`
record is always the session's `selectedProxy` value — the theorem holds for
every `foundRule`, so the removed rule's own `via`/proxy identifier never
enters the record — and a reapplied Redirect record (`action = 3`) sends
`via` equal to that stored session selection, or omits `via` entirely when
the selection was empty. -/
theorem claim_C10_pendingProxyIsSession (delResp : String → HttpResponse)
    (bypassResp postResp putResp : HttpResponse) (fr : Option JsonVal)
    (domain sp : String) (n : Int) (ea : JsonVal)
    (hdom : domain ≠ "") (hn : 0 < n)
    (hsucc : (removeControlDRule delResp bypassResp fr domain).success = true) :
    ((removeBtnFlow true delResp bypassResp fr domain (some n) ea sp).recordWritten
      = some ("rule_" ++ domain, ⟨ea, sp⟩))
    ∧ ((reapplyRule true
          (fun k => if k == "rule_" ++ domain then some ⟨.num 3, sp⟩ else none)
          postResp putResp domain).request
      = some ⟨[domain], .num 3, if sp != "" then some sp else none⟩) := by
  have hd : (domain == "") = false := beq_eq_false_iff_ne.mpr hdom
  constructor
  · simp [removeBtnFlow, hd, hsucc, hn]
  · by_cases hpo : respOk postResp.status = true <;> simp [reapplyRule, hpo]

/-- Witness for claim C10: the remote rule being removed carries
`via: "originalProxy"`, yet the record stores the (empty) session selection,
and the reapplied Redirect rule for a record storing `jp` sends `via: "jp"`. -/
theorem claim_C10_witness :
    ((removeBtnFlow true (fun _ => ⟨200, some (.obj [])⟩) ⟨500, none⟩
        (some (.obj [("PK", .str "p_x"), ("via", .str "originalProxy")]))
        "example.com" (some 5) (.num 3) "jp").recordWritten
      = some ("rule_" ++ "example.com", ⟨.num 3, "jp"⟩))
    ∧ ((reapplyRule true
          (fun k => if k == "rule_" ++ "example.com" then some ⟨.num 3, "jp"⟩ else none)
          ⟨200, some (.obj [])⟩ ⟨500, none⟩ "example.com").request
      = some ⟨["example.com"], .num 3, if "jp" != "" then some "jp" else none⟩) :=
  claim_C10_pendingProxyIsSession (fun _ => ⟨200, some (.obj [])⟩) ⟨500, none⟩
    ⟨200, some (.obj [])⟩ ⟨500, none⟩
    (some (.obj [("PK", .str "p_x"), ("via", .str "originalProxy")]))
    "example.com" "jp" 5 (.num 3)
    (by decide) (by decide) (by decide)
